import Mathlib

/-
Verification of the shared Blender parameter-injection helpers of the
multimedia-diw repository (lens_flare.py, neon_curves.py,
spacemovie_intro.py).  Python is shallowly embedded: Python values are an
inductive type `PyVal`, exceptions are `Option`/`Except` failures, and the
mutations performed on the host application's data blocks are explicit
state passing over structures that mirror the bpy objects the scripts
touch.
-/

set_option maxHeartbeats 1000000

namespace MultimediaDiw

/-- Python values as they appear in these scripts: numbers (int/float,
modelled as rationals), strings, booleans, None and lists. -/
inductive PyVal : Type
  | num (q : ℚ)
  | str (s : String)
  | bool (b : Bool)
  | none : PyVal
  | list (xs : List PyVal)
deriving Repr

/-- Python `len(value)`: defined for the sequence values of this model
(lists and strings); any other argument raises TypeError, modelled as
`Option.none`. -/
def pyLen : PyVal → Option ℕ
  | .list xs => some xs.length
  | .str s => some s.length
  | _ => Option.none

/-- Python indexing `value[i]` for a natural index: lists index their
elements, strings yield one-character strings; an out-of-range index is an
IndexError and a non-sequence a TypeError, both modelled as `Option.none`. -/
def pyIndex : PyVal → ℕ → Option PyVal
  | .list xs, i => xs.get? i
  | .str s, i => (s.data.get? i).map (fun c => PyVal.str (String.mk [c]))
  | _, _ => Option.none

/-- `ensure_rgba(color)` from the shared helpers:
if `len(color) >= 4` the input is returned unchanged, otherwise the list
`[color[0], color[1], color[2], 1.0]` is built.  A `len` TypeError or an
IndexError from the subscripts propagates as `Option.none`. -/
def ensure_rgba (color : PyVal) : Option PyVal :=
  match pyLen color with
  | Option.none => Option.none
  | some n =>
    if 4 ≤ n then some color
    else
      match pyIndex color 0, pyIndex color 1, pyIndex color 2 with
      | some c0, some c1, some c2 => some (.list [c0, c1, c2, .num 1])
      | _, _, _ => Option.none

/-- One ASCII digit. -/
def isAsciiDigit (c : Char) : Bool := 48 ≤ c.toNat && c.toNat ≤ 57

/-- Value of a digit run, most significant first. -/
def natOfDigits (cs : List Char) : ℕ := cs.foldl (fun a c => 10 * a + (c.toNat - 48)) 0

/-- Blank characters `float()` strips from both ends of its argument. -/
def isPySpace (c : Char) : Bool := c == ' ' || c == '\t' || c == '\n' || c == '\r'

/-- Unsigned decimal literal: a digit run, optionally split by one dot, with
at least one digit present.  Exponent, underscore, inf and nan forms are not
modelled. -/
def parseUnsignedDec (cs : List Char) : Option ℚ :=
  let ip := cs.takeWhile isAsciiDigit
  let rest := cs.dropWhile isAsciiDigit
  match rest with
  | [] => if ip.isEmpty then Option.none else some (natOfDigits ip)
  | '.' :: fp =>
    if fp.all isAsciiDigit && (!ip.isEmpty || !fp.isEmpty) then
      some ((natOfDigits ip : ℚ) + (natOfDigits fp : ℚ) / (10 : ℚ) ^ fp.length)
    else Option.none
  | _ => Option.none

/-- Decimal literal with an optional sign. -/
def parseSignedDec (cs : List Char) : Option ℚ :=
  match cs with
  | '-' :: rest => (parseUnsignedDec rest).map (fun q => -q)
  | '+' :: rest => parseUnsignedDec rest
  | _ => parseUnsignedDec cs

/-- Python `float(value)`: numbers convert to themselves, booleans to 0/1,
strings parse as decimal literals after stripping surrounding blanks; every
other value raises, modelled as `Option.none`. -/
def pyFloat : PyVal → Option ℚ
  | .num q => some q
  | .bool b => some (if b then 1 else 0)
  | .str s => parseSignedDec (((s.data.dropWhile isPySpace).reverse.dropWhile isPySpace).reverse)
  | _ => Option.none

/-- `_safe_rgba(value)` from lens_flare.py: try `ensure_rgba`, on any
exception try `float(value)` and spread it to grey RGBA, and on a second
exception fall back to opaque white.  Total by construction. -/
def _safe_rgba (value : PyVal) : PyVal :=
  match ensure_rgba value with
  | some r => r
  | Option.none =>
    match pyFloat value with
    | some v => .list [.num v, .num v, .num v, .num 1]
    | Option.none => .list [.num 1, .num 1, .num 1, .num 1]

/-! ### Helper lemmas about `ensure_rgba` -/

lemma ensure_rgba_of_four_le (v : PyVal) (n : ℕ) (hl : pyLen v = some n) (h4 : 4 ≤ n) :
    ensure_rgba v = some v := by
  simp [ensure_rgba, hl, h4]

lemma ensure_rgba_len_ge3 (v : PyVal) (n : ℕ) (hl : pyLen v = some n) (h3 : 3 ≤ n) :
    ∃ r m, ensure_rgba v = some r ∧ pyLen r = some m ∧ 4 ≤ m ∧ ensure_rgba r = some r := by
  rcases Nat.lt_or_ge n 4 with h4 | h4
  · have hn : n = 3 := by omega
    subst hn
    cases v with
    | list xs =>
      simp only [pyLen, Option.some.injEq] at hl
      obtain ⟨a, b, c, rfl⟩ := List.length_eq_three.mp hl
      exact ⟨_, 4, rfl, rfl, le_refl 4, rfl⟩
    | str s =>
      simp only [pyLen, Option.some.injEq] at hl
      have hd : s.data.length = 3 := hl
      obtain ⟨a, b, c, habc⟩ := List.length_eq_three.mp hd
      refine ⟨.list [.str (String.mk [a]), .str (String.mk [b]), .str (String.mk [c]), .num 1],
        4, ?_, rfl, le_refl 4, rfl⟩
      simp [ensure_rgba, pyLen, pyIndex, hl, habc]
    | num q => simp [pyLen] at hl
    | bool b => simp [pyLen] at hl
    | none => simp [pyLen] at hl
  · exact ⟨v, n, ensure_rgba_of_four_le v n hl h4, hl, h4,
      ensure_rgba_of_four_le v n hl h4⟩

/-! ### Claims C1, C8, C9 -/

/-- C1: on a 3-component color sequence `[r, g, b]`, `ensure_rgba` returns
the 4-component list `[r, g, b, 1.0]` (alpha fixed at 1.0); on any input with
4 or more components it returns the input unchanged. -/
theorem claim_C1 :
    (∀ r g b : PyVal, ensure_rgba (.list [r, g, b]) = some (.list [r, g, b, .num 1])) ∧
    (∀ (v : PyVal) (n : ℕ), pyLen v = some n → 4 ≤ n → ensure_rgba v = some v) :=
  ⟨fun _ _ _ => rfl, fun v n hl h4 => ensure_rgba_of_four_le v n hl h4⟩

theorem claim_C1_witness :
    ensure_rgba (.list [.num 1, .num 2, .num 3]) = some (.list [.num 1, .num 2, .num 3, .num 1]) ∧
    ensure_rgba (.list [.num 1, .num 2, .num 3, .num 4]) =
      some (.list [.num 1, .num 2, .num 3, .num 4]) :=
  ⟨claim_C1.1 (.num 1) (.num 2) (.num 3),
    claim_C1.2 (.list [.num 1, .num 2, .num 3, .num 4]) 4 rfl (by decide)⟩

/-- C9: `ensure_rgba` is idempotent on every color sequence of length at
least 3, and its result always has at least 4 components. -/
theorem claim_C9 (v : PyVal) (n : ℕ) (hl : pyLen v = some n) (h3 : 3 ≤ n) :
    ∃ r, ensure_rgba v = some r ∧ ensure_rgba r = some r ∧
      ∃ m, pyLen r = some m ∧ 4 ≤ m := by
  obtain ⟨r, m, h1, h2, h3', h4⟩ := ensure_rgba_len_ge3 v n hl h3
  exact ⟨r, h1, h4, m, h2, h3'⟩

theorem claim_C9_witness :
    ∃ r, ensure_rgba (.list [.num 0, .num 1, .num 2]) = some r ∧ ensure_rgba r = some r ∧
      ∃ m, pyLen r = some m ∧ 4 ≤ m :=
  claim_C9 (.list [.num 0, .num 1, .num 2]) 3 rfl (by decide)

/-- C8 counterexample: on a 5-component list `_safe_rgba` returns the input
unchanged, a 5-component list — not a 4-component RGBA list as the claim
states. -/
theorem claim_C8_counterexample :
    _safe_rgba (.list [.num 1, .num 2, .num 3, .num 4, .num 5]) =
      .list [.num 1, .num 2, .num 3, .num 4, .num 5] ∧
    pyLen (_safe_rgba (.list [.num 1, .num 2, .num 3, .num 4, .num 5])) = some 5 :=
  ⟨rfl, rfl⟩

/-- C8 (amended): `_safe_rgba` is total and never raises; a sequence of 3 or
more components yields the `ensure_rgba` result (which keeps the input's
component count when it is at least 4), a value on which `ensure_rgba`
raises but that converts to a float `v` yields `[v, v, v, 1.0]`, and every
other value yields the fallback `[1.0, 1.0, 1.0, 1.0]`. -/
theorem claim_C8_amended (v : PyVal) :
    (∀ n, pyLen v = some n → 3 ≤ n → ∃ r, ensure_rgba v = some r ∧ _safe_rgba v = r) ∧
    (ensure_rgba v = Option.none → ∀ q, pyFloat v = some q →
      _safe_rgba v = .list [.num q, .num q, .num q, .num 1]) ∧
    (ensure_rgba v = Option.none → pyFloat v = Option.none →
      _safe_rgba v = .list [.num 1, .num 1, .num 1, .num 1]) := by
  refine ⟨?_, ?_, ?_⟩
  · intro n hl h3
    obtain ⟨r, m, h1, _, _, _⟩ := ensure_rgba_len_ge3 v n hl h3
    exact ⟨r, h1, by simp [_safe_rgba, h1]⟩
  · intro he q hf
    simp [_safe_rgba, he, hf]
  · intro he hf
    simp [_safe_rgba, he, hf]

theorem claim_C8_amended_witness :
    (∃ r, ensure_rgba (.list [.num 1, .num 2, .num 3]) = some r ∧
      _safe_rgba (.list [.num 1, .num 2, .num 3]) = r) ∧
    _safe_rgba (.num (7 / 2)) = .list [.num (7 / 2), .num (7 / 2), .num (7 / 2), .num 1] ∧
    _safe_rgba PyVal.none = .list [.num 1, .num 1, .num 1, .num 1] :=
  ⟨(claim_C8_amended (.list [.num 1, .num 2, .num 3])).1 3 rfl (by decide),
    (claim_C8_amended (.num (7 / 2))).2.1 rfl (7 / 2) rfl,
    (claim_C8_amended PyVal.none).2.2 rfl rfl⟩

/-! ### Parameter dictionaries and the injected-JSON merge -/

/-- A Python parameter dictionary, observed through key lookup. -/
abbrev Params := String → Option PyVal

/-- `params.update(injected_params)`: after the update, a key present in
`injected` maps to its injected value and any other key keeps its value
from `defaults`. -/
def dict_update (defaults injected : Params) : Params :=
  fun k =>
    match injected k with
    | some v => some v
    | Option.none => defaults k

/-- The hardcoded `params` defaults dictionary of lens_flare.py
(decimal literals read as exact rationals). -/
def lens_flare_default_list : List (String × PyVal) := [
  ("title", .str "Oh Yeah! OpenShot!"),
  ("extrude", .num (1 / 10)),
  ("bevel_depth", .num (1 / 50)),
  ("spacemode", .str "CENTER"),
  ("text_size", .num (3 / 2)),
  ("width", .num 1),
  ("fontname", .str "Bfont"),
  ("color", .list [.num (4 / 5), .num (4 / 5), .num (4 / 5)]),
  ("alpha", .num 1),
  ("output_path", .str "/tmp/"),
  ("fps", .num 24),
  ("quality", .num 90),
  ("file_format", .str "PNG"),
  ("color_mode", .str "RGBA"),
  ("horizon_color", .list [.num (57 / 100), .num (57 / 100), .num (57 / 100)]),
  ("resolution_x", .num 1920),
  ("resolution_y", .num 1080),
  ("resolution_percentage", .num 100),
  ("start_frame", .num 20),
  ("end_frame", .num 25),
  ("animation", .bool true)]

/-- The defaults dictionary as a lookup function. -/
def lens_flare_defaults : Params := fun k =>
  (lens_flare_default_list.find? (fun p => p.1 == k)).map (fun p => p.2)

/-- The render fields touched by the fps lines of the scripts. -/
structure RenderSettings where
  fps : PyVal
  fps_base : PyVal
deriving Repr

/-- The guarded write `if "fps_base" in params: ... .render.fps_base = params["fps_base"]`. -/
def apply_fps_base (params : Params) (r : RenderSettings) : RenderSettings :=
  match params "fps_base" with
  | some v => { r with fps_base := v }
  | Option.none => r

/-! ### Claims C2 and C7 -/

/-- C2: merging injected parameters over defaults keeps every injected
binding and keeps the default binding of every key absent from the injected
dictionary — no unreferenced default is discarded. -/
theorem claim_C2 (defaults injected : Params) (k : String) :
    (∀ v, injected k = some v → dict_update defaults injected k = some v) ∧
    (injected k = Option.none → dict_update defaults injected k = defaults k) := by
  constructor
  · intro v hv
    simp [dict_update, hv]
  · intro hv
    simp [dict_update, hv]

theorem claim_C2_witness :
    dict_update (fun k => if k == "fps" then some (.num 24) else Option.none)
      (fun k => if k == "fps" then some (.num 30) else Option.none) "fps" = some (.num 30) ∧
    dict_update (fun k => if k == "title" then some (.str "t") else Option.none)
      (fun _ => Option.none) "title" = some (.str "t") :=
  ⟨(claim_C2 (fun k => if k == "fps" then some (.num 24) else Option.none)
      (fun k => if k == "fps" then some (.num 30) else Option.none) "fps").1 (.num 30) rfl,
    (claim_C2 (fun k => if k == "title" then some (.str "t") else Option.none)
      (fun _ => Option.none) "title").2 rfl⟩

/-- C7: a key absent from the injected dictionary falls back to the
hardcoded lens_flare default, and the fps_base render field is written
exactly when the merged dictionary holds the key, staying unchanged
otherwise. -/
theorem claim_C7 (injected : Params) (k : String) (r : RenderSettings) :
    (injected k = Option.none →
      dict_update lens_flare_defaults injected k = lens_flare_defaults k) ∧
    (injected "fps_base" = Option.none →
      apply_fps_base (dict_update lens_flare_defaults injected) r = r) ∧
    (∀ v, dict_update lens_flare_defaults injected "fps_base" = some v →
      apply_fps_base (dict_update lens_flare_defaults injected) r = { r with fps_base := v }) := by
  refine ⟨?_, ?_, ?_⟩
  · intro hv
    simp [dict_update, hv]
  · intro hv
    have hd : lens_flare_defaults "fps_base" = Option.none := rfl
    have hm : dict_update lens_flare_defaults injected "fps_base" = Option.none := by
      simp [dict_update, hv, hd]
    simp [apply_fps_base, hm]
  · intro v hv
    simp [apply_fps_base, hv]

theorem claim_C7_witness :
    dict_update lens_flare_defaults (fun _ => Option.none) "fps" = lens_flare_defaults "fps" ∧
    apply_fps_base (dict_update lens_flare_defaults (fun _ => Option.none))
      ⟨.num 24, .num 1⟩ = ⟨.num 24, .num 1⟩ ∧
    apply_fps_base
      (dict_update lens_flare_defaults
        (fun k => if k == "fps_base" then some (.num 2) else Option.none))
      ⟨.num 24, .num 1⟩ = ⟨.num 24, .num 2⟩ :=
  ⟨(claim_C7 (fun _ => Option.none) "fps" ⟨.num 24, .num 1⟩).1 rfl,
    (claim_C7 (fun _ => Option.none) "fps" ⟨.num 24, .num 1⟩).2.1 rfl,
    (claim_C7 (fun k => if k == "fps_base" then some (.num 2) else Option.none) "fps"
      ⟨.num 24, .num 1⟩).2.2 (.num 2) rfl⟩

/-! ### Animation speed lines (claim C3) -/

/-- Python 3 `round(q)` to an integer: round half to even. -/
def pyRound (q : ℚ) : ℤ :=
  let f := ⌊q⌋
  let r := q - f
  if r < 1 / 2 then f
  else if 1 / 2 < r then f + 1
  else if f % 2 = 0 then f else f + 1

/-- The scene timeline/remapping fields the speed lines write. -/
structure SceneTimeline where
  frame_map_old : ℤ
  frame_map_new : ℤ
  frame_start : ℚ
  frame_end : ℚ
deriving Repr, DecidableEq

/-- The animation-speed tail of lens_flare.py and spacemovie_intro.py:
`length_multiplier = round(params["length_multiplier"])`,
`new_length = params["end_frame"] * length_multiplier`, then the time
remapping fields, `frame_start` and `frame_end` are written. -/
def apply_animation_speed (end_frame length_multiplier start_frame : ℚ)
    (_s : SceneTimeline) : SceneTimeline :=
  let m := pyRound length_multiplier
  { frame_map_old := 1
    frame_map_new := m
    frame_start := start_frame
    frame_end := end_frame * (m : ℚ) }

lemma pyRound_intCast (n : ℤ) : pyRound (n : ℚ) = n := by
  simp [pyRound]

/-- C3 counterexample: with `end_frame = 250` and `length_multiplier = 1.6`
the scripts set `frame_end = 250 * round(1.6) = 500`, not the simple product
`250 * 1.6 = 400`. -/
theorem claim_C3_counterexample :
    (apply_animation_speed 250 (8 / 5) 1 ⟨1, 1, 1, 250⟩).frame_end = 500 ∧
    (250 : ℚ) * (8 / 5) = 400 ∧ (500 : ℚ) ≠ 400 := by
  refine ⟨?_, by norm_num, by norm_num⟩
  have h : pyRound (8 / 5 : ℚ) = 2 := by
    have hf : ⌊(8 / 5 : ℚ)⌋ = 1 := by norm_num [Int.floor_eq_iff]
    rw [pyRound]
    norm_num [hf]
  simp [apply_animation_speed, h]
  norm_num

/-- C3 (amended): the new length written to `frame_end` is
`end_frame * round(length_multiplier)` with Python's round-half-to-even; for
an integral multiplier this is the simple product, and in particular
`end_frame = 250` with multiplier 1.0 yields 250. -/
theorem claim_C3_amended (e m sf : ℚ) (s : SceneTimeline) :
    (apply_animation_speed e m sf s).frame_end = e * (pyRound m : ℚ) ∧
    (∀ n : ℤ, (apply_animation_speed e (n : ℚ) sf s).frame_end = e * (n : ℚ)) ∧
    (apply_animation_speed 250 1 sf s).frame_end = 250 := by
  refine ⟨rfl, ?_, ?_⟩
  · intro n
    simp [apply_animation_speed, pyRound_intCast]
  · have h1 : pyRound (1 : ℚ) = 1 := by
      have := pyRound_intCast 1
      simpa using this
    simp [apply_animation_speed, h1]

/-! ### The animation-curve data model (bpy actions and fcurves) -/

/-- A keyframe point: its `co` pair and the two handles (x, y). -/
structure KeyframePoint where
  co : ℚ × ℚ
  handle_left : ℚ × ℚ
  handle_right : ℚ × ℚ
deriving Repr, DecidableEq

/-- An animation curve channel. -/
structure FCurve where
  array_index : ℕ
  keyframe_points : List KeyframePoint
deriving Repr, DecidableEq

/-- A channelbag; `fcurves` is `getattr(bag, "fcurves", None)`. -/
structure Channelbag where
  fcurves : Option (List FCurve)
deriving Repr, DecidableEq

/-- A strip of a layered action. -/
structure ActionStrip where
  channelbags : List Channelbag
deriving Repr, DecidableEq

/-- A layer of a layered action. -/
structure ActionLayer where
  strips : List ActionStrip
deriving Repr, DecidableEq

/-- An action: `fcurves = some _` models `hasattr(action, "fcurves")`;
`layers` models `getattr(action, "layers", [])`. -/
structure Action where
  fcurves : Option (List FCurve)
  layers : List ActionLayer
deriving Repr, DecidableEq

/-- All channelbags of an action in layer → strip → bag traversal order. -/
def actionBags (a : Action) : List Channelbag :=
  (a.layers.map (fun layer => (layer.strips.map ActionStrip.channelbags).flatten)).flatten

/-- The first non-None `fcurves` collection among the action's channelbags. -/
def fallbackCurves (a : Action) : Option (List FCurve) :=
  (actionBags a).findSome? Channelbag.fcurves

/-- `get_action_fcurves(action)` from the shared helpers: return
`action.fcurves` when the attribute exists, otherwise the first non-None
`fcurves` over layers/strips/channelbags, otherwise raise AttributeError
(modelled as `Except.error`). -/
def get_action_fcurves (a : Action) : Except String (List FCurve) :=
  match a.fcurves with
  | some fcs => .ok fcs
  | Option.none =>
    match fallbackCurves a with
    | some curves => .ok curves
    | Option.none => .error "No fcurves found on action (unsupported Blender version?)"

/-- The dict comprehension `{fc.array_index: fc for fc in fcurves}` looked
up at `i`: later entries overwrite earlier ones, so this is the last fcurve
with array index `i`, if any. -/
def by_index (fcs : List FCurve) (i : ℕ) : Option FCurve :=
  fcs.foldl (fun acc fc => if fc.array_index == i then some fc else acc) Option.none

/-- The three mutation lines of the inner loop of update_color_fcurves:
`keyframe_point.co = coord`, `handle_left.y = coord[1]`,
`handle_right.y = coord[1]` on the point at position `point` (the handles
keep their x). Out of range this is the identity; the caller guards that. -/
def setKP (point : ℕ) (coord : ℚ × ℚ) (fc : FCurve) : FCurve :=
  match fc.keyframe_points.get? point with
  | Option.none => fc
  | some kp =>
    { fc with
      keyframe_points := fc.keyframe_points.set point
        { co := coord
          handle_left := (kp.handle_left.1, coord.2)
          handle_right := (kp.handle_right.1, coord.2) } }

/-- State-passing form of the mutation through the `by_index` dict
reference: `setKP` lands on the last fcurve whose array index is `i`, the
one `by_index` denotes; all other elements are untouched. -/
def writeChannel (i point : ℕ) (coord : ℚ × ℚ) : List FCurve → List FCurve
  | [] => []
  | fc :: rest =>
    match by_index rest i with
    | some _ => fc :: writeChannel i point coord rest
    | Option.none =>
      if fc.array_index == i then setKP point coord fc :: rest
      else fc :: rest

/-- One iteration of `for i in range(0, 3)`: fetch channel `i` from the
dict, skip when it is absent or `point` is past its keyframe points, then
read `color[i]` (IndexError aborts) and write the keyframe point. -/
def channelStep (point : ℕ) (frame : ℚ) (color : List ℚ) (i : ℕ)
    (fcs : List FCurve) : List FCurve × Option String :=
  match by_index fcs i with
  | Option.none => (fcs, Option.none)
  | some fc =>
    if fc.keyframe_points.length ≤ point then (fcs, Option.none)
    else
      match color.get? i with
      | Option.none => (fcs, some "IndexError: color")
      | some ci => (writeChannel i point (frame, ci) fcs, Option.none)

/-- Error propagation around one channel iteration: once an exception is
pending, later iterations never run. -/
def errStep (point : ℕ) (frame : ℚ) (color : List ℚ)
    (st : List FCurve × Option String) (i : ℕ) : List FCurve × Option String :=
  match st with
  | (s, some e) => (s, some e)
  | (s, Option.none) => channelStep point frame color i s

/-- The inner `for i in range(0, 3)` loop, stopping at the first error. -/
def channelsAt (point : ℕ) (frame : ℚ) (color : List ℚ)
    (fcs : List FCurve) : List FCurve × Option String :=
  [0, 1, 2].foldl (errStep point frame color) (fcs, Option.none)

/-- The `for point, (frame, color) in enumerate(keyframes)` loop starting at
counter `point`; an exception aborts the loop but keeps the mutations made
so far. -/
def updateFromPoint (point : ℕ) (fcs : List FCurve) :
    List (ℚ × List ℚ) → List FCurve × Option String
  | [] => (fcs, Option.none)
  | (frame, color) :: rest =>
    match channelsAt point frame color fcs with
    | (fcs2, some e) => (fcs2, some e)
    | (fcs2, Option.none) => updateFromPoint (point + 1) fcs2 rest

/-- The whole keyframe loop of update_color_fcurves over the fcurve list. -/
def update_fcurve_points (fcs : List FCurve) (keyframes : List (ℚ × List ℚ)) :
    List FCurve × Option String :=
  updateFromPoint 0 fcs keyframes

/-! ### The action database and update_color_fcurves -/

/-- `bpy.data.<collection>.get(name)`. -/
def lookupByName {α : Type} (db : List (String × α)) (name : String) : Option α :=
  (db.find? (fun p => p.1 == name)).map (fun p => p.2)

/-- Replace the value stored under `name`. -/
def setByName {α : Type} (db : List (String × α)) (name : String) (v : α) :
    List (String × α) :=
  db.map (fun p => if p.1 == name then (p.1, v) else p)

/-- Write an fcurve list into the first channelbag that had one. -/
def setBagsFC (fcs : List FCurve) : List Channelbag → Option (List Channelbag)
  | [] => Option.none
  | b :: rest =>
    match b.fcurves with
    | some _ => some ({ fcurves := some fcs } :: rest)
    | Option.none => (setBagsFC fcs rest).map (fun bs => b :: bs)

/-- Write an fcurve list into the first strip holding a non-None bag. -/
def setStripsFC (fcs : List FCurve) : List ActionStrip → Option (List ActionStrip)
  | [] => Option.none
  | s :: rest =>
    match setBagsFC fcs s.channelbags with
    | some bags => some ({ channelbags := bags } :: rest)
    | Option.none => (setStripsFC fcs rest).map (fun ss => s :: ss)

/-- Write an fcurve list into the first layer holding a non-None bag. -/
def setLayersFC (fcs : List FCurve) : List ActionLayer → Option (List ActionLayer)
  | [] => Option.none
  | l :: rest =>
    match setStripsFC fcs l.strips with
    | some ss => some ({ strips := ss } :: rest)
    | Option.none => (setLayersFC fcs rest).map (fun ls => l :: ls)

/-- Store the (mutated) fcurve list back where `get_action_fcurves` found
it: on the action itself when it has the attribute, else in the first
channelbag that offered curves. -/
def setActionFCurves (a : Action) (fcs : List FCurve) : Action :=
  match a.fcurves with
  | some _ => { a with fcurves := some fcs }
  | Option.none =>
    match setLayersFC fcs a.layers with
    | some ls => { a with layers := ls }
    | Option.none => a

/-- `update_color_fcurves(action_name, keyframes)` over an explicit actions
database: returns the database after the call, the Python return value
(the action, or None when it was absent or an exception escaped), and the
escaped exception if any. -/
def update_color_fcurves (actions : List (String × Action)) (action_name : String)
    (keyframes : List (ℚ × List ℚ)) :
    List (String × Action) × Option Action × Option String :=
  match lookupByName actions action_name with
  | Option.none => (actions, Option.none, Option.none)
  | some action =>
    match get_action_fcurves action with
    | .error e => (actions, Option.none, some e)
    | .ok fcs =>
      let res := update_fcurve_points fcs keyframes
      let action2 := setActionFCurves action res.1
      (setByName actions action_name action2,
        match res.2 with
        | some _ => Option.none
        | Option.none => some action2,
        res.2)

/-! ### Lemmas about the fallback traversal and `by_index` -/

lemma findSome?_fcurves_eq_none (l : List Channelbag)
    (h : ∀ b ∈ l, b.fcurves = Option.none) :
    l.findSome? Channelbag.fcurves = Option.none := by
  induction l with
  | nil => rfl
  | cons b rest ih =>
    have hb : b.fcurves = Option.none := h b (List.mem_cons_self b rest)
    have hrest : rest.findSome? Channelbag.fcurves = Option.none :=
      ih (fun x hx => h x (List.mem_cons_of_mem b hx))
    simp [List.findSome?_cons, hb, hrest]

lemma by_index_foldl_acc (i : ℕ) (fcs : List FCurve) (acc : Option FCurve) :
    fcs.foldl (fun a fc => if fc.array_index == i then some fc else a) acc =
      match by_index fcs i with
      | some fc => some fc
      | Option.none => acc := by
  induction fcs generalizing acc with
  | nil => rfl
  | cons fc rest ih =>
    simp only [List.foldl_cons]
    rw [ih]
    have hcons : by_index (fc :: rest) i =
        match by_index rest i with
        | some x => some x
        | Option.none => if fc.array_index == i then some fc else Option.none := by
      simp only [by_index, List.foldl_cons]
      rw [ih]
      rfl
    rw [hcons]
    cases by_index rest i with
    | some x => rfl
    | none => by_cases h : fc.array_index == i <;> simp [h]

lemma by_index_cons (fc : FCurve) (rest : List FCurve) (i : ℕ) :
    by_index (fc :: rest) i =
      match by_index rest i with
      | some x => some x
      | Option.none => if fc.array_index == i then some fc else Option.none := by
  simp only [by_index, List.foldl_cons]
  rw [by_index_foldl_acc]
  rfl

lemma by_index_some (fcs : List FCurve) (i : ℕ) (fc : FCurve)
    (h : by_index fcs i = some fc) : fc.array_index = i ∧ fc ∈ fcs := by
  induction fcs with
  | nil => simp [by_index] at h
  | cons hd rest ih =>
    rw [by_index_cons] at h
    cases hrest : by_index rest i with
    | some x =>
      rw [hrest] at h
      obtain ⟨hi, hm⟩ := ih (hrest.trans h)
      exact ⟨hi, List.mem_cons_of_mem hd hm⟩
    | none =>
      rw [hrest] at h
      by_cases hhd : hd.array_index == i
      · rw [if_pos hhd] at h
        have heq : hd = fc := Option.some.inj h
        subst heq
        exact ⟨eq_of_beq hhd, List.mem_cons_self hd rest⟩
      · rw [if_neg hhd] at h
        cases h

/-! ### Claims C4 and C6 -/

/-- C4: when the action has no `fcurves` attribute and no channelbag of the
layer/strip traversal yields an fcurves collection, `get_action_fcurves`
raises the explicit AttributeError instead of returning a value. -/
theorem claim_C4 (a : Action) (hattr : a.fcurves = Option.none)
    (hbags : ∀ layer ∈ a.layers, ∀ strip ∈ layer.strips,
      ∀ bag ∈ strip.channelbags, bag.fcurves = Option.none) :
    get_action_fcurves a =
      .error "No fcurves found on action (unsupported Blender version?)" := by
  have hbag : ∀ b ∈ actionBags a, b.fcurves = Option.none := by
    intro b hb
    simp only [actionBags, List.mem_flatten, List.mem_map] at hb
    obtain ⟨bs, ⟨layer, hlayer, rfl⟩, hb⟩ := hb
    simp only [List.mem_flatten, List.mem_map] at hb
    obtain ⟨cs, ⟨strip, hstrip, rfl⟩, hb⟩ := hb
    exact hbags layer hlayer strip hstrip b hb
  have hfb : fallbackCurves a = Option.none := findSome?_fcurves_eq_none _ hbag
  simp [get_action_fcurves, hattr, hfb]

theorem claim_C4_witness :
    get_action_fcurves ⟨Option.none, [⟨[⟨[⟨Option.none⟩]⟩]⟩]⟩ =
      .error "No fcurves found on action (unsupported Blender version?)" :=
  claim_C4 ⟨Option.none, [⟨[⟨[⟨Option.none⟩]⟩]⟩]⟩ rfl (by decide)

/-- C6: `get_action_fcurves` returns the `fcurves` attribute directly when
it exists, otherwise the first non-None collection of the
layer/strip/channelbag traversal; and the channel `update_color_fcurves`
works on for index `i` is selected by `array_index` (absent index: the
iteration is a no-op). -/
theorem claim_C6 :
    (∀ (a : Action) (fcs : List FCurve), a.fcurves = some fcs →
      get_action_fcurves a = .ok fcs) ∧
    (∀ (a : Action) (curves : List FCurve), a.fcurves = Option.none →
      fallbackCurves a = some curves → get_action_fcurves a = .ok curves) ∧
    (∀ (fcs : List FCurve) (i : ℕ) (fc : FCurve), by_index fcs i = some fc →
      fc.array_index = i ∧ fc ∈ fcs) ∧
    (∀ (point : ℕ) (frame : ℚ) (color : List ℚ) (i : ℕ) (fcs : List FCurve),
      by_index fcs i = Option.none →
      channelStep point frame color i fcs = (fcs, Option.none)) := by
  refine ⟨?_, ?_, ?_, ?_⟩
  · intro a fcs h
    simp [get_action_fcurves, h]
  · intro a curves hattr hfb
    simp [get_action_fcurves, hattr, hfb]
  · intro fcs i fc h
    exact by_index_some fcs i fc h
  · intro point frame color i fcs h
    simp [channelStep, h]

theorem claim_C6_witness :
    get_action_fcurves ⟨some [⟨0, []⟩], []⟩ = .ok [⟨0, []⟩] ∧
    get_action_fcurves ⟨Option.none, [⟨[⟨[⟨some [⟨1, []⟩]⟩]⟩]⟩]⟩ = .ok [⟨1, []⟩] ∧
    ((⟨2, []⟩ : FCurve).array_index = 2 ∧ (⟨2, []⟩ : FCurve) ∈ [⟨2, []⟩]) ∧
    channelStep 0 1 [2, 3, 4] 0 [⟨7, []⟩] = ([⟨7, []⟩], Option.none) :=
  ⟨claim_C6.1 ⟨some [⟨0, []⟩], []⟩ [⟨0, []⟩] rfl,
    claim_C6.2.1 ⟨Option.none, [⟨[⟨[⟨some [⟨1, []⟩]⟩]⟩]⟩]⟩ [⟨1, []⟩] rfl rfl,
    claim_C6.2.2.1 [⟨2, []⟩] 2 ⟨2, []⟩ rfl,
    claim_C6.2.2.2 0 1 [2, 3, 4] 0 [⟨7, []⟩] rfl⟩

/-! ### Safety lemmas for the keyframe loop (claim C10) -/

lemma setKP_array_index (point : ℕ) (coord : ℚ × ℚ) (fc : FCurve) :
    (setKP point coord fc).array_index = fc.array_index := by
  unfold setKP
  cases fc.keyframe_points.get? point <;> rfl

lemma setKP_kps_length (point : ℕ) (coord : ℚ × ℚ) (fc : FCurve) :
    (setKP point coord fc).keyframe_points.length = fc.keyframe_points.length := by
  unfold setKP
  cases fc.keyframe_points.get? point with
  | none => rfl
  | some kp => simp

lemma setKP_getElem?_ne (point p : ℕ) (coord : ℚ × ℚ) (fc : FCurve) (hp : p ≠ point) :
    (setKP point coord fc).keyframe_points[p]? = fc.keyframe_points[p]? := by
  unfold setKP
  cases fc.keyframe_points.get? point with
  | none => rfl
  | some kp => simp [List.getElem?_set_ne (Ne.symm hp)]

lemma setKP_oob (point : ℕ) (coord : ℚ × ℚ) (fc : FCurve)
    (h : fc.keyframe_points.length ≤ point) : setKP point coord fc = fc := by
  unfold setKP
  have hn : fc.keyframe_points.get? point = Option.none := by
    rw [List.get?_eq_getElem?]
    exact List.getElem?_eq_none h
  rw [hn]

lemma writeChannel_length (i point : ℕ) (coord : ℚ × ℚ) (fcs : List FCurve) :
    (writeChannel i point coord fcs).length = fcs.length := by
  induction fcs with
  | nil => rfl
  | cons fc rest ih =>
    unfold writeChannel
    cases by_index rest i with
    | some x => simp [ih]
    | none => by_cases h : fc.array_index == i <;> simp [h]

lemma writeChannel_getElem? (i point : ℕ) (coord : ℚ × ℚ) (fcs : List FCurve) (j : ℕ) :
    (writeChannel i point coord fcs)[j]? = fcs[j]? ∨
    ∃ ofc, fcs[j]? = some ofc ∧ ofc.array_index = i ∧
      (writeChannel i point coord fcs)[j]? = some (setKP point coord ofc) := by
  induction fcs generalizing j with
  | nil => left; rfl
  | cons fc rest ih =>
    unfold writeChannel
    cases hb : by_index rest i with
    | some x =>
      dsimp only
      cases j with
      | zero => left; simp
      | succ j' =>
        rcases ih j' with h | ⟨ofc, h1, h2, h3⟩
        · left; simpa using h
        · right; exact ⟨ofc, by simpa using h1, h2, by simpa using h3⟩
    | none =>
      dsimp only
      by_cases h : fc.array_index == i
      · rw [if_pos h]
        cases j with
        | zero => right; exact ⟨fc, by simp, eq_of_beq h, by simp⟩
        | succ j' => left; simp
      · rw [if_neg h]
        left; rfl

/-- What one pass of the loop may do to one fcurve: array index and point
count are preserved, an fcurve of channel 3 or above is untouched, and
every keyframe point at a position outside `[lo, hi)` or out of range is
untouched. -/
def ElemOk (lo hi : ℕ) (ofc nfc : FCurve) : Prop :=
  nfc.array_index = ofc.array_index ∧
  nfc.keyframe_points.length = ofc.keyframe_points.length ∧
  (3 ≤ ofc.array_index → nfc = ofc) ∧
  ∀ p, (p < lo ∨ hi ≤ p ∨ ofc.keyframe_points.length ≤ p) →
    nfc.keyframe_points[p]? = ofc.keyframe_points[p]?

/-- Element-wise `ElemOk` plus length preservation for an fcurve list. -/
def ListOk (lo hi : ℕ) (fcs out : List FCurve) : Prop :=
  out.length = fcs.length ∧
  ∀ (j : ℕ) (ofc nfc : FCurve), fcs[j]? = some ofc → out[j]? = some nfc →
    ElemOk lo hi ofc nfc

lemma elemOk_refl (lo hi : ℕ) (fc : FCurve) : ElemOk lo hi fc fc :=
  ⟨rfl, rfl, fun _ => rfl, fun _ _ => rfl⟩

lemma elemOk_comp {lo1 hi1 lo2 hi2 : ℕ} {a b c : FCurve}
    (h1 : ElemOk lo1 hi1 a b) (h2 : ElemOk lo2 hi2 b c) :
    ElemOk (min lo1 lo2) (max hi1 hi2) a c := by
  obtain ⟨i1, l1, u1, p1⟩ := h1
  obtain ⟨i2, l2, u2, p2⟩ := h2
  refine ⟨i2.trans i1, l2.trans l1, ?_, ?_⟩
  · intro h3
    have hb : 3 ≤ b.array_index := by rw [i1]; exact h3
    rw [u2 hb, u1 h3]
  · intro p hp
    have hpb : p < lo2 ∨ hi2 ≤ p ∨ b.keyframe_points.length ≤ p := by rw [l1]; omega
    have hpa : p < lo1 ∨ hi1 ≤ p ∨ a.keyframe_points.length ≤ p := by omega
    rw [p2 p hpb, p1 p hpa]

lemma listOk_refl (lo hi : ℕ) (fcs : List FCurve) : ListOk lo hi fcs fcs := by
  refine ⟨rfl, ?_⟩
  intro j ofc nfc h1 h2
  rw [h1] at h2
  cases h2
  exact elemOk_refl lo hi ofc

lemma listOk_comp {lo1 hi1 lo2 hi2 : ℕ} {fcs mid out : List FCurve}
    (h1 : ListOk lo1 hi1 fcs mid) (h2 : ListOk lo2 hi2 mid out) :
    ListOk (min lo1 lo2) (max hi1 hi2) fcs out := by
  obtain ⟨len1, el1⟩ := h1
  obtain ⟨len2, el2⟩ := h2
  refine ⟨len2.trans len1, ?_⟩
  intro j ofc nfc hof hnf
  have hj : j < fcs.length := by
    by_contra hj
    push_neg at hj
    rw [List.getElem?_eq_none hj] at hof
    cases hof
  have hjm : j < mid.length := by rw [len1]; exact hj
  have hmid : mid[j]? = some (mid.get ⟨j, hjm⟩) := by
    rw [← List.get?_eq_getElem?]
    exact List.get?_eq_get hjm
  exact elemOk_comp (el1 j ofc _ hof hmid) (el2 j _ nfc hmid hnf)

lemma listOk_mono {lo hi lo' hi' : ℕ} (hlo : lo' ≤ lo) (hhi : hi ≤ hi')
    {fcs out : List FCurve} (h : ListOk lo hi fcs out) : ListOk lo' hi' fcs out := by
  obtain ⟨hlen, hel⟩ := h
  refine ⟨hlen, ?_⟩
  intro j ofc nfc hof hnf
  obtain ⟨i1, l1, u1, p1⟩ := hel j ofc nfc hof hnf
  refine ⟨i1, l1, u1, ?_⟩
  intro p hp
  apply p1
  omega

lemma channelStep_listOk (point : ℕ) (frame : ℚ) (color : List ℚ) (i : ℕ)
    (hi3 : i < 3) (fcs : List FCurve) :
    ListOk point (point + 1) fcs (channelStep point frame color i fcs).1 := by
  unfold channelStep
  cases hb : by_index fcs i with
  | none => exact listOk_refl _ _ _
  | some fc =>
    dsimp only
    by_cases hlen : fc.keyframe_points.length ≤ point
    · rw [if_pos hlen]
      exact listOk_refl _ _ _
    · rw [if_neg hlen]
      cases hc : color.get? i with
      | none => exact listOk_refl _ _ _
      | some ci =>
        refine ⟨writeChannel_length _ _ _ _, ?_⟩
        intro j ofc nfc hof hnf
        rcases writeChannel_getElem? i point (frame, ci) fcs j with h | ⟨ofc', h1, h2, h3⟩
        · rw [h, hof] at hnf
          cases hnf
          exact elemOk_refl _ _ _
        · rw [hof] at h1
          have heq : ofc' = ofc := (Option.some.inj h1).symm
          subst heq
          rw [h3] at hnf
          have heq2 : nfc = setKP point (frame, ci) ofc' := (Option.some.inj hnf).symm
          subst heq2
          refine ⟨setKP_array_index _ _ _, setKP_kps_length _ _ _, ?_, ?_⟩
          · intro h3le
            rw [h2] at h3le
            omega
          · intro p hp
            rcases hp with h | h | h
            · exact setKP_getElem?_ne _ _ _ _ (by omega)
            · exact setKP_getElem?_ne _ _ _ _ (by omega)
            · by_cases hpe : p = point
              · subst hpe
                rw [setKP_oob p (frame, ci) ofc' h]
              · exact setKP_getElem?_ne _ _ _ _ hpe

lemma errStep_listOk (point : ℕ) (frame : ℚ) (color : List ℚ) (i : ℕ) (hi : i < 3)
    (base : List FCurve) (st : List FCurve × Option String)
    (h : ListOk point (point + 1) base st.1) :
    ListOk point (point + 1) base ((errStep point frame color st i).1) := by
  rcases st with ⟨s, err⟩
  cases err with
  | some e => exact h
  | none =>
    have h2 := channelStep_listOk point frame color i hi s
    have h3 := listOk_comp h h2
    simpa using h3

lemma channelsAt_listOk (point : ℕ) (frame : ℚ) (color : List ℚ) (fcs : List FCurve) :
    ListOk point (point + 1) fcs (channelsAt point frame color fcs).1 := by
  unfold channelsAt
  simp only [List.foldl_cons, List.foldl_nil]
  exact errStep_listOk _ _ _ 2 (by omega) _ _
    (errStep_listOk _ _ _ 1 (by omega) _ _
      (errStep_listOk _ _ _ 0 (by omega) _ _ (listOk_refl _ _ _)))

lemma updateFromPoint_listOk (kfs : List (ℚ × List ℚ)) :
    ∀ (point : ℕ) (fcs : List FCurve),
      ListOk point (point + kfs.length) fcs (updateFromPoint point fcs kfs).1 := by
  induction kfs with
  | nil =>
    intro point fcs
    exact listOk_refl _ _ _
  | cons kf rest ih =>
    intro point fcs
    obtain ⟨frame, color⟩ := kf
    unfold updateFromPoint
    rcases hch : channelsAt point frame color fcs with ⟨fcs2, err⟩
    have h1 : ListOk point (point + 1) fcs fcs2 := by
      have h0 := channelsAt_listOk point frame color fcs
      rw [hch] at h0
      exact h0
    cases err with
    | some e =>
      dsimp only
      exact listOk_mono (le_refl point) (by simp) h1
    | none =>
      dsimp only
      have h2 := ih (point + 1) fcs2
      have h3 := listOk_comp h1 h2
      rw [Nat.min_eq_left (by omega), Nat.max_eq_right (by omega)] at h3
      have h4 : point + 1 + rest.length = point + (rest.length + 1) := by omega
      rw [h4] at h3
      simpa using h3

/-! ### Claim C10 -/

/-- C10: the keyframe loop of update_color_fcurves never writes out of
range: the fcurve list keeps its length, every fcurve keeps its array index
and its number of keyframe points, fcurves whose array index is not 0, 1 or
2 are left fully unchanged, and every keyframe point at a position at or
past the number of supplied keyframes, or out of the fcurve's range, is
left unchanged — with or without an escaped IndexError. -/
theorem claim_C10 (fcs : List FCurve) (keyframes : List (ℚ × List ℚ)) :
    (update_fcurve_points fcs keyframes).1.length = fcs.length ∧
    ∀ (j : ℕ) (ofc nfc : FCurve), fcs[j]? = some ofc →
      (update_fcurve_points fcs keyframes).1[j]? = some nfc →
      nfc.array_index = ofc.array_index ∧
      nfc.keyframe_points.length = ofc.keyframe_points.length ∧
      (3 ≤ ofc.array_index → nfc = ofc) ∧
      ∀ p : ℕ, keyframes.length ≤ p ∨ ofc.keyframe_points.length ≤ p →
        nfc.keyframe_points[p]? = ofc.keyframe_points[p]? := by
  obtain ⟨hlen, hel⟩ := updateFromPoint_listOk keyframes 0 fcs
  refine ⟨hlen, ?_⟩
  intro j ofc nfc hof hnf
  obtain ⟨i1, l1, u1, p1⟩ := hel j ofc nfc hof hnf
  refine ⟨i1, l1, u1, ?_⟩
  intro p hp
  apply p1
  omega

theorem claim_C10_witness :
    (update_fcurve_points [⟨0, [⟨(0, 0), (0, 0), (0, 0)⟩]⟩]
      [(1, [2, 3, 4]), (7, [8, 9, 10])]).1.length = 1 ∧
    (FCurve.mk 0 [⟨(1, 2), (0, 2), (0, 2)⟩]).keyframe_points[5]? =
      (FCurve.mk 0 [⟨(0, 0), (0, 0), (0, 0)⟩]).keyframe_points[5]? := by
  have h := claim_C10 [⟨0, [⟨(0, 0), (0, 0), (0, 0)⟩]⟩] [(1, [2, 3, 4]), (7, [8, 9, 10])]
  exact ⟨h.1, (h.2 0 ⟨0, [⟨(0, 0), (0, 0), (0, 0)⟩]⟩ ⟨0, [⟨(1, 2), (0, 2), (0, 2)⟩]⟩
    rfl rfl).2.2.2 5 (by simp)⟩

/-! ### Materials, shader nodes and keyframe_principled -/

/-- A node input socket; `inserted` logs the `keyframe_insert` calls made on
`default_value` as (channel index or None, frame) pairs. -/
structure Socket where
  name : String
  type : String
  default_value : PyVal
  inserted : List (Option ℕ × ℚ)
deriving Repr

/-- A shader node with its named input sockets. -/
structure ShaderNode where
  name : String
  inputs : List Socket
deriving Repr

/-- A material node tree. -/
structure NodeTree where
  nodes : List ShaderNode
deriving Repr

/-- A material data block with the fields the helpers touch. -/
structure Material where
  diffuse_color : PyVal
  specular_color : PyVal
  node_tree : Option NodeTree
deriving Repr

/-- `keyframe_color_socket(socket, keyframes)`: for every (frame, color)
pair, `ensure_rgba` the color (an exception stops the loop, keeping the
writes already made), store it in `default_value` and insert one keyframe
per channel 0..3 at that frame. -/
def keyframe_color_socket (s : Socket) (keyframes : List (ℚ × PyVal)) :
    Socket × Option String :=
  keyframes.foldl
    (fun st kf =>
      match st with
      | (sock, some e) => (sock, some e)
      | (sock, Option.none) =>
        match ensure_rgba kf.2 with
        | Option.none => (sock, some "TypeError: ensure_rgba")
        | some rgba =>
          ({ sock with
              default_value := rgba
              inserted := sock.inserted ++ (List.range 4).map (fun idx => (some idx, kf.1)) },
            Option.none))
    (s, Option.none)

/-- `keyframe_value_socket(socket, value, frames)`: set the value once and
insert one un-indexed keyframe per frame. -/
def keyframe_value_socket (s : Socket) (value : PyVal) (frames : List ℚ) : Socket :=
  { s with
    default_value := value
    inserted := s.inserted ++ frames.map (fun f => (Option.none, f)) }

/-- `_get_principled_node(mat)`: the node named "Principled BSDF" of the
material's node tree, None when the tree is absent. -/
def _get_principled_node (mat : Material) : Option ShaderNode :=
  match mat.node_tree with
  | some nt => nt.nodes.find? (fun n => n.name == "Principled BSDF")
  | Option.none => Option.none

/-- `needle` is a prefix of `hay` (on character lists). -/
def hasPrefixL : List Char → List Char → Bool
  | _, [] => true
  | [], _ :: _ => false
  | a :: as, b :: bs => a == b && hasPrefixL as bs

/-- Substring search on character lists. -/
def hasSubstrL : List Char → List Char → Bool
  | [], needle => needle.isEmpty
  | a :: as, needle => hasPrefixL (a :: as) needle || hasSubstrL as needle

/-- Python `needle in hay` for strings. -/
def strContains (hay needle : String) : Bool := hasSubstrL hay.data needle.data

/-- Python truthiness of an optional keyframe-list argument: None and the
empty list are falsy. -/
def truthyKfs (o : Option (List (ℚ × PyVal))) : Bool :=
  match o with
  | some (_ :: _) => true
  | _ => false

/-- The slice `[:3]` on a sequence value. -/
def pySlice3 (v : PyVal) : Option PyVal :=
  match v with
  | .list xs => some (.list (xs.take 3))
  | .str s => some (.str (String.mk (s.data.take 3)))
  | _ => Option.none

/-- Apply a socket mutation at an optional index of the inputs list; the
(possibly partially) mutated socket is stored back even when the mutation
raised. -/
def modifySocketAt (inputs : List Socket) (idx : Option ℕ)
    (f : Socket → Socket × Option String) : List Socket × Option String :=
  match idx with
  | Option.none => (inputs, Option.none)
  | some k =>
    match inputs[k]? with
    | Option.none => (inputs, Option.none)
    | some s =>
      match f s with
      | (s2, e) => (inputs.set k s2, e)

/-- Run a socket-stage mutation only when no exception is pending. -/
def seqSock (st : List Socket × Option String)
    (f : List Socket → List Socket × Option String) : List Socket × Option String :=
  match st with
  | (ins, some e) => (ins, some e)
  | (ins, Option.none) => f ins

/-- `keyframe_principled(...)` from the shared helpers, over an explicit
materials database: looks up the material (absent: return None untouched),
applies the optional viewport/specular color writes, finds the Principled
BSDF node (absent: return the material), resolves the base/emission/
strength/IOR/specular-tint sockets by name or hardcoded index, applies the
keyframe and value writes in source order, and returns the database after
the call, the Python return value, and an escaped exception if any. -/
def keyframe_principled (materials : List (String × Material)) (material_name : String)
    (base_keyframes : Option (List (ℚ × PyVal)))
    (emission_keyframes : Option (List (ℚ × PyVal)))
    (emission_strength : Option (PyVal × List ℚ))
    (viewport_color : Option PyVal)
    (specular_value : Option PyVal)
    (specular_color : Option PyVal) :
    List (String × Material) × Option Material × Option String :=
  match lookupByName materials material_name with
  | Option.none => (materials, Option.none, Option.none)
  | some mat0 =>
    match (match viewport_color with
           | Option.none => Except.ok mat0
           | some vc =>
             match ensure_rgba vc with
             | Option.none => Except.error "TypeError: ensure_rgba"
             | some rgba => Except.ok { mat0 with diffuse_color := rgba } :
             Except String Material) with
    | .error e => (materials, Option.none, some e)
    | .ok mat1 =>
      match (match specular_color with
             | Option.none => Except.ok mat1
             | some sc =>
               match ensure_rgba sc with
               | Option.none => Except.error "TypeError: ensure_rgba"
               | some rgba =>
                 match pySlice3 rgba with
                 | Option.none => Except.error "TypeError: slice"
                 | some rgb => Except.ok { mat1 with specular_color := rgb } :
               Except String Material) with
      | .error e => (setByName materials material_name mat1, Option.none, some e)
      | .ok mat2 =>
        match mat2.node_tree with
        | Option.none => (setByName materials material_name mat2, some mat2, Option.none)
        | some nt =>
          match nt.nodes.findIdx? (fun n => n.name == "Principled BSDF") with
          | Option.none => (setByName materials material_name mat2, some mat2, Option.none)
          | some ni =>
            let bsdf := nt.nodes.getD ni ⟨"", []⟩
            let inputs := bsdf.inputs
            let base_i := inputs.findIdx? (fun s => s.name == "Base Color")
            let emission_i := if 27 < inputs.length then some 27 else Option.none
            let strength_i := if 28 < inputs.length then some 28 else Option.none
            let ior_i := if 3 < inputs.length then some 3 else Option.none
            let tint_i :=
              match inputs.findIdx?
                  (fun s => strContains s.name "Specular Tint" && s.type == "RGBA") with
              | some k => some k
              | Option.none =>
                if 14 < inputs.length &&
                    (inputs.getD 14 ⟨"", "", .none, []⟩).type == "RGBA" then some 14
                else Option.none
            let st1 :=
              if base_i.isSome && truthyKfs base_keyframes then
                modifySocketAt inputs base_i
                  (fun s => keyframe_color_socket s (base_keyframes.getD []))
              else (inputs, Option.none)
            let st2 := seqSock st1 (fun ins =>
              if emission_i.isSome && truthyKfs emission_keyframes then
                modifySocketAt ins emission_i
                  (fun s => keyframe_color_socket s (emission_keyframes.getD []))
              else (ins, Option.none))
            let st3 := seqSock st2 (fun ins =>
              match strength_i, emission_strength with
              | some k, some vf =>
                modifySocketAt ins (some k)
                  (fun s => (keyframe_value_socket s vf.1 vf.2, Option.none))
              | _, _ => (ins, Option.none))
            let st4 := seqSock st3 (fun ins =>
              match ior_i, specular_value with
              | some k, some v =>
                modifySocketAt ins (some k)
                  (fun s => ({ s with default_value := v }, Option.none))
              | _, _ => (ins, Option.none))
            let st5 := seqSock st4 (fun ins =>
              match tint_i, specular_color with
              | some k, some sc =>
                match ensure_rgba sc with
                | Option.none => (ins, some "TypeError: ensure_rgba")
                | some rgba =>
                  modifySocketAt ins (some k)
                    (fun s => ({ s with default_value := rgba }, Option.none))
              | _, _ => (ins, Option.none))
            let mat3 := { mat2 with
              node_tree := some ⟨nt.nodes.set ni { bsdf with inputs := st5.1 }⟩ }
            (setByName materials material_name mat3,
              match st5.2 with
              | some _ => Option.none
              | Option.none => some mat3,
              st5.2)

/-! ### Claim C5 -/

/-- C5: a missing named host object short-circuits the mutation with an
early return: when the named action is absent `update_color_fcurves`
returns None leaving the database untouched, and when the named material is
absent `keyframe_principled` returns None leaving the database untouched. -/
theorem claim_C5 :
    (∀ (actions : List (String × Action)) (action_name : String)
      (keyframes : List (ℚ × List ℚ)),
      lookupByName actions action_name = Option.none →
      update_color_fcurves actions action_name keyframes =
        (actions, Option.none, Option.none)) ∧
    (∀ (materials : List (String × Material)) (material_name : String)
      (bk ek : Option (List (ℚ × PyVal))) (es : Option (PyVal × List ℚ))
      (vc sv sc : Option PyVal),
      lookupByName materials material_name = Option.none →
      keyframe_principled materials material_name bk ek es vc sv sc =
        (materials, Option.none, Option.none)) := by
  constructor
  · intro actions name kfs h
    simp [update_color_fcurves, h]
  · intro materials name bk ek es vc sv sc h
    simp [keyframe_principled, h]

theorem claim_C5_witness :
    update_color_fcurves [] "SphereAction" [(1, [2, 3, 4])] =
      ([], Option.none, Option.none) ∧
    keyframe_principled [] "Material.001" Option.none Option.none Option.none
      Option.none Option.none Option.none = ([], Option.none, Option.none) :=
  ⟨claim_C5.1 [] "SphereAction" [(1, [2, 3, 4])] rfl,
    claim_C5.2 [] "Material.001" Option.none Option.none Option.none Option.none
      Option.none Option.none rfl⟩

end MultimediaDiw
